import Mathlib

/-!
Shallow embedding of the layout/matching core of the `ecom-saas-mvp-2`
backend (`src/backend/utils/smartLayout.js`): image analysis, CSV
normalization, SKU matching and layout composition, together with proofs of
the behavioural properties stated in the project specification.

JavaScript values are modelled as follows: JS `Map` objects and plain objects
become insertion-ordered association lists; JS numbers on the integral paths
become `Nat`/`Int` and on the fractional paths become `Rat` (all the ratios
appearing here are far from any double-precision rounding boundary);
`undefined`/`null`/`""` string falsiness becomes the empty string or `Option`;
thrown exceptions of a sub-computation become an `Option`/`Except` input or
result.
-/

namespace EcomLayout

/-- JS `String.prototype.toLowerCase` (ASCII-faithful model): lower-case every
character. -/
def jsToLower (s : String) : String := ⟨s.data.map Char.toLower⟩

/-- JS `s.includes(sub)`: `sub` occurs contiguously inside `s`. -/
def jsIncludes (s sub : String) : Bool := decide (sub.data <:+: s.data)

/-- Index of the last '.' of `s` (in characters), if any. -/
def lastDotIdx (s : String) : Option Nat :=
  ((List.range s.data.length).filter (fun i => s.data.getD i ' ' = '.')).getLast?

/-- `path.basename(s, path.extname(s))` for a plain file name (no directory
separators): drop the suffix starting at the last '.', except when there is no
'.' or the '.' is the leading character (a dotfile has no extension). -/
def nameWithoutExt (s : String) : String :=
  match lastDotIdx s with
  | none => s
  | some 0 => s
  | some i => ⟨s.data.take i⟩

/-! ### JS `Map` with string keys

Modelled as an insertion-ordered association list: `set` overwrites the value
of an existing key in place (keeping the key's original position in iteration
order) and otherwise appends. -/

/-- JS `Map.prototype.set`. -/
def mapSet (m : List (String × α)) (k : String) (v : α) : List (String × α) :=
  match m with
  | [] => [(k, v)]
  | p :: rest => if p.1 = k then (k, v) :: rest else p :: mapSet rest k v

/-- JS `Map.prototype.get`. -/
def mapGet : List (String × α) → String → Option α
  | [], _ => none
  | p :: rest, k => if p.1 = k then some p.2 else mapGet rest k

/-- JS `Map.prototype.has`. -/
def mapHas : List (String × α) → String → Bool
  | [], _ => false
  | p :: rest, k => if p.1 = k then true else mapHas rest k

/-! ### Data model of the SKU matcher (`FileHandler.matchImagesToProducts`) -/

/-- A normalized CSV product record as consumed by the matcher: the canonical
`sku` field (empty string models a JS-falsy `undefined`/`""` value) and the
`_rowIndex` stamped on every record by `parseProductCSV`. -/
structure ProductRec where
  sku : String
  rowIndex : Nat
deriving DecidableEq

/-- An uploaded image as seen by the matcher (`image.originalName ||
image.fileName`). -/
structure ImageRef where
  originalName : String
  fileName : String
deriving DecidableEq

/-- `image.originalName || image.fileName`. -/
def imageName (img : ImageRef) : String :=
  if img.originalName ≠ "" then img.originalName else img.fileName

/-- The value stored in the SKU lookup: the record spread together with its
`csvIndex`. -/
abbrev SkuEntry := ProductRec × Nat

/-- The `csvData.forEach((product, index) => { if (product.sku)
skuMap.set(product.sku.toLowerCase(), {...product, csvIndex: index}) })` loop,
with the running map and index made explicit. -/
def buildSkuMapFrom (m : List (String × SkuEntry)) (index : Nat) :
    List ProductRec → List (String × SkuEntry)
  | [] => m
  | product :: rest =>
      buildSkuMapFrom
        (if product.sku ≠ "" then mapSet m (jsToLower product.sku) (product, index) else m)
        (index + 1) rest

/-- The case-insensitive `sku → record` lookup built by
`matchImagesToProducts`. -/
def buildSkuMap (csvData : List ProductRec) : List (String × SkuEntry) :=
  buildSkuMapFrom [] 0 csvData

/-- The three matching strategies applied to one image, in source order,
stopping at the first hit: exact key match, then SKU-contained-in-filename,
then filename-contained-in-SKU, each scanning the lookup in insertion
order. -/
def matchOneImage (skuMap : List (String × SkuEntry)) (image : ImageRef) : Option SkuEntry :=
  let nameNoExt := nameWithoutExt (imageName image)
  let base := jsToLower nameNoExt
  match (if mapHas skuMap base then mapGet skuMap base else none) with
  | some p => some p
  | none =>
    match skuMap.find? (fun e => jsIncludes base e.1) with
    | some e => some e.2
    | none =>
      match skuMap.find? (fun e => jsIncludes e.1 base) with
      | some e => some e.2
      | none => none

/-- The spec's description of the per-image scan, for comparison with
`matchOneImage`: take the first entry whose key *equals* the base name,
otherwise the first entry whose key is *contained in* the base name, otherwise
the first entry whose key *contains* the base name, each scan in insertion
order; `none` when all three scans miss. -/
def threeStrategyScan (sm : List (String × SkuEntry)) (base : String) : Option SkuEntry :=
  match sm.find? (fun e => e.1 = base) with
  | some e => some e.2
  | none =>
    match sm.find? (fun e => jsIncludes base e.1) with
    | some e => some e.2
    | none =>
      match sm.find? (fun e => jsIncludes e.1 base) with
      | some e => some e.2
      | none => none

/-- The latest record (with its position) whose non-empty SKU lower-cases to
`k`, scanning `csvData` from position `index` on: the entry that a JS `Map`
populated by `set` in input order actually retains under key `k`. -/
def lastWithSkuFrom (index : Nat) (k : String) : List ProductRec → Option SkuEntry
  | [] => none
  | product :: rest =>
    match lastWithSkuFrom (index + 1) k rest with
    | some e => some e
    | none =>
      if product.sku ≠ "" ∧ jsToLower product.sku = k then some (product, index) else none

/-- The latest record of `csvData` whose non-empty SKU lower-cases to `k`. -/
def lastWithSku (csvData : List ProductRec) (k : String) : Option SkuEntry :=
  lastWithSkuFrom 0 k csvData

/-- One `matched` entry: `{ image, product: matchedProduct, matchedSku:
matchedProduct.sku }`. -/
structure MatchedEntry where
  image : ImageRef
  product : SkuEntry
  matchedSku : String
deriving DecidableEq

/-- Return value of `matchImagesToProducts`.  `matchRate` is the numeric value
of the JS `(matched.length / images.length * 100).toFixed(1)` (exact decimal
rounding to one place, ties away from zero on this non-negative range), and
the literal number `0` when there are no images. -/
structure MatchResult where
  matched : List MatchedEntry
  unmatchedProducts : List ProductRec
  unmatchedImages : List ImageRef
  matchRate : ℚ
deriving DecidableEq

/-- The `images.forEach(...)` loop: push a matched entry or an unmatched
image, in input order. -/
def matchImagesStep (skuMap : List (String × SkuEntry))
    (acc : List MatchedEntry × List ImageRef) (image : ImageRef) :
    List MatchedEntry × List ImageRef :=
  match matchOneImage skuMap image with
  | some p => (acc.1 ++ [⟨image, p, p.1.sku⟩], acc.2)
  | none => (acc.1, acc.2 ++ [image])

/-- `FileHandler.matchImagesToProducts(images, csvData)`. -/
def matchImagesToProducts (images : List ImageRef) (csvData : List ProductRec) :
    MatchResult :=
  let skuMap := buildSkuMap csvData
  let pair := images.foldl (matchImagesStep skuMap) ([], [])
  let matchedSkus := pair.1.map (fun m => jsToLower m.matchedSku)
  { matched := pair.1
    unmatchedProducts := csvData.filter (fun product =>
      product.sku ≠ "" && !(matchedSkus.contains (jsToLower product.sku)))
    unmatchedImages := pair.2
    matchRate :=
      if images.length > 0 then
        ((round (((pair.1.length : ℚ) / (images.length : ℚ) * 100) * 10) : ℤ) : ℚ) / 10
      else 0 }

/-! ### CSV normalization (`FileHandler.parseProductCSV`)

A parsed CSV row is a JS object: string keys (the already lower-cased,
underscore-collapsed headers produced by `transformHeader`) mapped to trimmed
string cell values.  JS objects are modelled like `Map`s: insertion-ordered
association lists where assignment overwrites in place. -/

/-- A JS object with string values. -/
abbrev JsObj := List (String × String)

/-- Property read `o[k]`: `none` models `undefined`. -/
def objGet (o : JsObj) (k : String) : Option String := mapGet o k

/-- Property write `o[k] = v`. -/
def objSet (o : JsObj) (k v : String) : JsObj := mapSet o k v

/-- `Object.assign(o, r)`: copy every own property of `r` onto `o`. -/
def objAssign (o r : JsObj) : JsObj := r.foldl (fun acc p => objSet acc p.1 p.2) o

/-- The `columnMapping` table of `parseProductCSV`, in declaration order. -/
def columnMapping : List (String × List String) :=
  [("sku", ["sku", "product_sku", "item_sku", "code", "product_code"]),
   ("brand", ["brand", "brand_name", "manufacturer"]),
   ("product_name", ["product_name", "name", "title", "product_title", "item_name"]),
   ("full_price", ["full_price", "original_price", "price", "msrp", "retail_price"]),
   ("discounted_price", ["discounted_price", "sale_price", "promo_price", "special_price"]),
   ("discount_percent", ["discount_percent", "discount", "discount_%", "off"]),
   ("description", ["description", "product_description", "details"]),
   ("category", ["category", "product_category", "type"]),
   ("image_url", ["image_url", "image", "product_image", "photo"])]

/-- The inner alias loop: the first variation that is defined and non-empty in
the row wins (`if (row[variation] !== undefined && row[variation] !== '') ...
break`). -/
def firstAliasValue (row : JsObj) (variations : List String) : Option String :=
  match variations with
  | [] => none
  | v :: rest =>
    match objGet row v with
    | some s => if s ≠ "" then some s else firstAliasValue row rest
    | none => firstAliasValue row rest

/-- One entry of the canonical-field loop: bind the canonical key `e.1` when
some alias of `e.2` has a non-empty value in the row. -/
def applyCanonical (row : JsObj) (acc : JsObj) (e : String × List String) : JsObj :=
  match firstAliasValue row e.2 with
  | some v => objSet acc e.1 v
  | none => acc

/-- One iteration of `result.data.map((row, index) => ...)`: start from
`{ _rowIndex: index }`, bind each canonical key to its first non-empty alias
value, then `Object.assign(normalizedRow, row)` copies the original columns
on top. -/
def normalizeRow (index : Nat) (row : JsObj) : JsObj :=
  let withCanon := columnMapping.foldl (applyCanonical row) [("_rowIndex", toString index)]
  objAssign withCanon row

/-- The `normalizedData` array of `parseProductCSV`. -/
def normalizeRows (rows : List JsObj) : List JsObj :=
  (rows.enum).map (fun e => normalizeRow e.1 e.2)

/-! ### Image analysis (`SmartLayout.analyzeImage` and its metric helpers)

The sharp pipeline calls are effectful; each one is modelled by handing the
function the outcome of the call: `none` models a throw (corrupt buffer,
unsupported color space), `some` carries the decoded metadata or raw pixel
buffer the JS callback would have received. -/

/-- `sharp(imageBuffer).metadata()` result. -/
structure Metadata where
  width : Nat
  height : Nat
  format : String
deriving DecidableEq

/-- A raw pixel buffer as handed back by `.raw().toBuffer({ resolveWithObject:
true })`: the byte list plus the reported geometry and channel count. -/
structure RawData where
  data : List Nat
  channels : Nat
  width : Nat
  height : Nat
deriving DecidableEq

/-- `SmartLayout.determineRecommendedUse(metadata)`.  The JS thresholds `1.5`
and `0.8` are modelled by the exact rationals `3/2` and `4/5`. -/
def determineRecommendedUse (width height : Nat) : String :=
  let aspectRatio : ℚ := (width : ℚ) / (height : ℚ)
  if aspectRatio > 3/2 then "banner"
  else if aspectRatio < 4/5 then "vertical"
  else "square"

/-- `SmartLayout.calculateLayoutPriority(metadata)`. -/
def calculateLayoutPriority (width height : Nat) : Nat :=
  let totalPixels := width * height
  if totalPixels > 2000000 then 5
  else if totalPixels > 1000000 then 4
  else if totalPixels > 500000 then 3
  else if totalPixels > 200000 then 2
  else 1

/-- The `for (let i = 0; i < data.length; i += channels) total += data[i]`
accumulation. -/
def strideSum (data : List Nat) (channels : Nat) : Nat :=
  (((List.range data.length).filter (fun i => i % channels = 0)).map
    (fun i => data.getD i 0)).sum

/-- `SmartLayout.calculateBrightness`: mean of the first channel of the
grayscaled raw buffer; `128` when the sharp call threw. -/
def calculateBrightness (raw : Option RawData) : ℚ :=
  match raw with
  | none => 128
  | some r => (strideSum r.data r.channels : ℚ) / ((r.data.length : ℚ) / (r.channels : ℚ))

/-- Byte read `data[idx]` (as an integer, for the difference tests). -/
def pix (r : RawData) (idx : Nat) : ℤ := (r.data.getD idx 0 : ℤ)

/-- The double loop of `calculateComplexity`: count interior pixels whose
right- or bottom-neighbor differs by more than 30. -/
def edgeCount (r : RawData) : Nat :=
  ((List.range' 1 (r.height - 2)).flatMap (fun y =>
    (List.range' 1 (r.width - 2)).map (fun x => (x, y)))).countP (fun p =>
      let idx := p.2 * r.width + p.1
      ((pix r idx - pix r (idx + 1)).natAbs > 30 ||
       (pix r idx - pix r (idx + r.width)).natAbs > 30 : Bool))

/-- `SmartLayout.calculateComplexity`: normalized edge density of the
downscaled grayscale buffer; `0.1` when the sharp call threw. -/
def calculateComplexity (raw : Option RawData) : ℚ :=
  match raw with
  | none => 1/10
  | some r => (edgeCount r : ℚ) / ((r.width : ℚ) * (r.height : ℚ))

/-- `n.toString(16).padStart(2, '0')`. -/
def toHex2 (n : Nat) : String :=
  let s : String := ⟨Nat.toDigits 16 n⟩
  if s.length < 2 then "0" ++ s else s

/-- Channel mean of the 10×10 downscale, `Math.round`ed. -/
def channelMean (r : RawData) (offset : Nat) : Nat :=
  let channelSum := (((List.range r.data.length).filter (fun i => i % r.channels = 0)).map
    (fun i => r.data.getD (i + offset) 0)).sum
  let pixelCount : ℚ := (r.data.length : ℚ) / (r.channels : ℚ)
  (round ((channelSum : ℚ) / pixelCount)).toNat

/-- `SmartLayout.getDominantColor`: per-channel mean encoded as a hex color;
mid-gray `#808080` when the sharp call threw. -/
def getDominantColor (raw : Option RawData) : String :=
  match raw with
  | none => "#808080"
  | some r =>
    "#" ++ toHex2 (channelMean r 0) ++ toHex2 (channelMean r 1) ++ toHex2 (channelMean r 2)

/-- The per-image analysis record. -/
structure ImageAnalysis where
  width : Nat
  height : Nat
  format : String
  aspectRatio : ℚ
  fileName : String
  dominantColor : String
  brightness : ℚ
  complexity : ℚ
  recommendedUse : String
  layoutPriority : Nat
deriving DecidableEq

/-- `SmartLayout.analyzeImage(imageBuffer, fileName)`.  The base `metadata`
read is the only sub-computation whose failure escapes the outer
`try`/`catch`; each metric helper swallows its own failure and substitutes its
default. -/
def analyzeImage (metadata : Option Metadata)
    (brightnessRaw complexityRaw colorRaw : Option RawData)
    (fileName : String) : Except String ImageAnalysis :=
  match metadata with
  | none => .error "Failed to analyze image"
  | some m =>
    .ok { width := m.width
          height := m.height
          format := m.format
          aspectRatio := (m.width : ℚ) / (m.height : ℚ)
          fileName := fileName
          dominantColor := getDominantColor colorRaw
          brightness := calculateBrightness brightnessRaw
          complexity := calculateComplexity complexityRaw
          recommendedUse := determineRecommendedUse m.width m.height
          layoutPriority := calculateLayoutPriority m.width m.height }

/-! ### Layout composition (`SmartLayout.generateLayoutRecommendations`)

The composer consumes product image descriptors (`{url, fileName, name}`), an
optional frame, icons and the optional normalized CSV rows; it only ever reads
the canonical text fields off a CSV row, so a row is modelled by that
projection (an absent/empty JS field is the empty string). -/

/-- A product image as seen by the composer. -/
structure ProductImg where
  url : String
  fileName : String
  name : String
deriving DecidableEq

/-- An icon image. -/
structure IconImg where
  url : String
deriving DecidableEq

/-- The optional frame. -/
structure FrameInfo where
  url : String
deriving DecidableEq

/-- The canonical fields `matchProductToCSV`/`createTextElementsFromCSV` read
off a normalized CSV row (empty string models a JS-falsy value). -/
structure CsvRow where
  sku : String
  product_name : String
  brand : String
  full_price : String
  discounted_price : String
  discount_percent : String
deriving DecidableEq

/-- A percentage-of-canvas box `{x, y, width, height}`. -/
structure ElemPos where
  x : ℚ
  y : ℚ
  width : ℚ
  height : ℚ
deriving DecidableEq

/-- The ad hoc style bag of text/badge elements ("" models an absent field). -/
structure TextStyle where
  fontSize : Nat
  color : String
  fontWeight : String
  textAlign : String
  backgroundColor : String
  textDecoration : String
  borderRadius : String
deriving DecidableEq

/-- A layout element: the `type` string discriminates, `source` is set for
visual kinds, `content`/`style` for text kinds, and `dataField` only on the
CSV-derived text/badge elements. -/
structure LayoutElement where
  type : String
  source : String
  content : String
  dataField : Option String
  position : ElemPos
  style : Option TextStyle
  zIndex : Nat
deriving DecidableEq

/-- One carousel slide. -/
structure Slide where
  type : String
  elements : List LayoutElement
deriving DecidableEq

/-- One generated layout.  Grid/banner/story use `elements`; carousel uses
`slides` (its `elements` list stays empty, modelling the absent JS field). -/
structure Layout where
  type : String
  name : String
  description : String
  recommendedSize : Nat × Nat
  elements : List LayoutElement
  slides : List Slide
  priority : Nat
deriving DecidableEq, Inhabited

/-- The `fileName.toLowerCase().replace(/\.(jpg|jpeg|png|webp)$/i, '')`
normalization of `matchProductToCSV` (the input is already lower-cased when
the suffix is stripped). -/
def stripImageSuffix (s : String) : String :=
  if s.endsWith ".jpg" then s.dropRight 4
  else if s.endsWith ".jpeg" then s.dropRight 5
  else if s.endsWith ".png" then s.dropRight 4
  else if s.endsWith ".webp" then s.dropRight 5
  else s

/-- `SmartLayout.matchProductToCSV(product, csvData)`: scan the rows in order;
a row with a truthy `sku` matches when the lower-cased stripped file name
contains the lower-cased SKU or vice versa. -/
def matchProductToCSV (product : ProductImg) (csvData : List CsvRow) : Option CsvRow :=
  match csvData with
  | [] => none
  | _ =>
    let fileName := if product.fileName ≠ "" then product.fileName else product.name
    let fileNameLower := stripImageSuffix (jsToLower fileName)
    csvData.find? (fun row =>
      row.sku ≠ "" &&
        (jsIncludes fileNameLower (jsToLower row.sku) ||
         jsIncludes (jsToLower row.sku) fileNameLower))

/-- `SmartLayout.createTextElementsFromCSV(csvRow, position)`. -/
def createTextElementsFromCSV (csvRow : Option CsvRow) (position : ElemPos) :
    List LayoutElement :=
  match csvRow with
  | none => []
  | some row =>
    (if row.product_name ≠ "" then
      [{ type := "text", source := "", content := row.product_name
         dataField := some "product_name"
         position := { x := position.x, y := position.y, width := position.width, height := 8 }
         style := some { fontSize := 16, color := "#000000", fontWeight := "bold"
                         textAlign := "center", backgroundColor := "", textDecoration := ""
                         borderRadius := "" }
         zIndex := 10 }]
     else []) ++
    (if row.brand ≠ "" then
      [{ type := "text", source := "", content := row.brand
         dataField := some "brand"
         position := { x := position.x, y := position.y + 8, width := position.width, height := 5 }
         style := some { fontSize := 12, color := "#666666", fontWeight := ""
                         textAlign := "center", backgroundColor := "", textDecoration := ""
                         borderRadius := "" }
         zIndex := 10 }]
     else []) ++
    (if row.discounted_price ≠ "" || row.full_price ≠ "" then
      let priceY := position.y + (if row.brand ≠ "" then 13 else 8)
      if row.discounted_price ≠ "" && row.full_price ≠ "" then
        [{ type := "text", source := "", content := row.full_price
           dataField := some "full_price"
           position := { x := position.x, y := priceY, width := position.width / 2, height := 5 }
           style := some { fontSize := 14, color := "#999999", fontWeight := ""
                           textAlign := "right", backgroundColor := ""
                           textDecoration := "line-through", borderRadius := "" }
           zIndex := 10 },
         { type := "text", source := "", content := row.discounted_price
           dataField := some "discounted_price"
           position := { x := position.x + position.width / 2, y := priceY
                         width := position.width / 2, height := 5 }
           style := some { fontSize := 16, color := "#E53E3E", fontWeight := "bold"
                           textAlign := "left", backgroundColor := "", textDecoration := ""
                           borderRadius := "" }
           zIndex := 10 }]
      else
        [{ type := "text", source := ""
           content := if row.discounted_price ≠ "" then row.discounted_price else row.full_price
           dataField := some (if row.discounted_price ≠ "" then "discounted_price" else "full_price")
           position := { x := position.x, y := priceY, width := position.width, height := 5 }
           style := some { fontSize := 16, color := "#000000", fontWeight := "bold"
                           textAlign := "center", backgroundColor := "", textDecoration := ""
                           borderRadius := "" }
           zIndex := 10 }]
     else []) ++
    (if row.discount_percent ≠ "" then
      [{ type := "badge", source := "", content := "-" ++ row.discount_percent ++ "%"
         dataField := some "discount_percent"
         position := { x := position.x + position.width - 15, y := position.y - 5
                       width := 15, height := 8 }
         style := some { fontSize := 14, color := "#FFFFFF", fontWeight := "bold"
                         textAlign := "center", backgroundColor := "#E53E3E"
                         textDecoration := "", borderRadius := "4px" }
         zIndex := 11 }]
     else [])

/-- `Math.ceil(Math.sqrt(n))` on a `Nat`. -/
def ceilSqrt (n : Nat) : Nat :=
  if Nat.sqrt n * Nat.sqrt n = n then Nat.sqrt n else Nat.sqrt n + 1

/-- The full-bleed frame element (`zIndex 0`) shared by the templates. -/
def frameElement (frame : FrameInfo) : LayoutElement :=
  { type := "frame", source := frame.url, content := "", dataField := none
    position := { x := 0, y := 0, width := 100, height := 100 }
    style := none, zIndex := 0 }

/-- The `for (let i = 0; ...)` body of `createGridElements`, with the running
index made explicit. -/
def gridCells (gridSize : Nat) (csvData : Option (List CsvRow)) :
    Nat → List ProductImg → List LayoutElement
  | _, [] => []
  | i, product :: rest =>
    let cellWidth : ℚ := 96 / (gridSize : ℚ)
    let cellHeight : ℚ := 96 / (gridSize : ℚ)
    let x : ℚ := ((i % gridSize : Nat) : ℚ) * (100 / (gridSize : ℚ)) + 2
    let y : ℚ := ((i / gridSize : Nat) : ℚ) * (100 / (gridSize : ℚ)) + 2
    ({ type := "image", source := product.url, content := "", dataField := none
       position := { x := x, y := y, width := cellWidth * (9/10), height := cellHeight * (6/10) }
       style := none, zIndex := 1 } ::
     (match csvData with
      | some cd => createTextElementsFromCSV (matchProductToCSV product cd)
          { x := x, y := y + cellHeight * (6/10)
            width := cellWidth * (9/10), height := cellHeight * (3/10) }
      | none => [])) ++
    gridCells gridSize csvData (i + 1) rest

/-- `SmartLayout.createGridElements(products, frameInfo, csvData)`. -/
def createGridElements (products : List ProductImg) (frameInfo : Option FrameInfo)
    (csvData : Option (List CsvRow)) : List LayoutElement :=
  gridCells (ceilSqrt products.length) csvData 0 products ++
    (match frameInfo with
     | some frame => [frameElement frame]
     | none => [])

/-- The `for (let i = 1; i < Math.min(products.length, 4); i++)` loop of
`createBannerElements`: up to three additional products stacked at the left. -/
def bannerExtraProducts (products : List ProductImg) : List LayoutElement :=
  ((products.drop 1).take 3).enum.map (fun e =>
    { type := "image", source := e.2.url, content := "", dataField := none
      position := { x := 5, y := 20 + (e.1 : ℚ) * 18, width := 15, height := 15 }
      style := none, zIndex := 1 })

/-- The icon loop of `createBannerElements`: up to three icons, `zIndex 2`. -/
def bannerIcons (icons : List IconImg) : List LayoutElement :=
  (icons.take 3).enum.map (fun e =>
    { type := "icon", source := e.2.url, content := "", dataField := none
      position := { x := 25, y := 20 + (e.1 : ℚ) * 25, width := 8, height := 8 }
      style := none, zIndex := 2 })

/-- `SmartLayout.createBannerElements(products, frameInfo, icons, csvData)`. -/
def createBannerElements (products : List ProductImg) (frameInfo : Option FrameInfo)
    (icons : List IconImg) (csvData : Option (List CsvRow)) : List LayoutElement :=
  (match frameInfo with
   | some frame => [frameElement frame]
   | none => []) ++
  (match products with
   | [] => []
   | hero :: _ =>
     { type := "image", source := hero.url, content := "", dataField := none
       position := { x := 60, y := 10, width := 35, height := 60 }
       style := none, zIndex := 1 } ::
     (match csvData with
      | some cd => createTextElementsFromCSV (matchProductToCSV hero cd)
          { x := 60, y := 72, width := 35, height := 20 }
      | none => [])) ++
  bannerExtraProducts products ++
  (if icons.length > 0 then bannerIcons icons else [])

/-- The `'Your Product Title Here'` placeholder of `createStoryElements`. -/
def storyPlaceholder : LayoutElement :=
  { type := "text", source := "", content := "Your Product Title Here", dataField := none
    position := { x := 10, y := 70, width := 80, height := 10 }
    style := some { fontSize := 24, color := "#000000", fontWeight := "bold"
                    textAlign := "center", backgroundColor := "", textDecoration := ""
                    borderRadius := "" }
    zIndex := 2 }

/-- `SmartLayout.createStoryElements(products, frameInfo, icons, csvData)`
(the `icons` argument is accepted but never read by the source body). -/
def createStoryElements (products : List ProductImg) (frameInfo : Option FrameInfo)
    (_icons : List IconImg) (csvData : Option (List CsvRow)) : List LayoutElement :=
  (match frameInfo with
   | some frame => [frameElement frame]
   | none => []) ++
  (match products with
   | [] => []
   | hero :: _ =>
     { type := "image", source := hero.url, content := "", dataField := none
       position := { x := 10, y := 15, width := 80, height := 50 }
       style := none, zIndex := 1 } ::
     (match csvData with
      | some cd =>
        match matchProductToCSV hero cd with
        | some csvRow => createTextElementsFromCSV (some csvRow)
            { x := 10, y := 68, width := 80, height := 20 }
        | none => [storyPlaceholder]
      | none => [storyPlaceholder]))

/-- The `` `Product ${i + 1}` `` fallback caption of a carousel product
slide. -/
def carouselFallback (i : Nat) : LayoutElement :=
  { type := "text", source := "", content := "Product " ++ toString (i + 1), dataField := none
    position := { x := 10, y := 75, width := 80, height := 10 }
    style := some { fontSize := 18, color := "#333333", fontWeight := ""
                    textAlign := "center", backgroundColor := "", textDecoration := ""
                    borderRadius := "" }
    zIndex := 2 }

/-- The per-product slide loop of `createCarouselSlides`. -/
def carouselProductSlides (csvData : Option (List CsvRow)) :
    Nat → List ProductImg → List Slide
  | _, [] => []
  | i, product :: rest =>
    { type := "product"
      elements :=
        { type := "image", source := product.url, content := "", dataField := none
          position := { x := 10, y := 15, width := 80, height := 55 }
          style := none, zIndex := 1 } ::
        (match csvData with
         | some cd =>
           match matchProductToCSV product cd with
           | some csvRow => createTextElementsFromCSV (some csvRow)
               { x := 10, y := 72, width := 80, height := 20 }
           | none => [carouselFallback i]
         | none => [carouselFallback i]) } ::
    carouselProductSlides csvData (i + 1) rest

/-- `SmartLayout.createCarouselSlides(products, frameInfo, csvData)`: a title
slide followed by one slide per product (the `frameInfo` argument is accepted
but never read by the source body). -/
def createCarouselSlides (products : List ProductImg) (_frameInfo : Option FrameInfo)
    (csvData : Option (List CsvRow)) : List Slide :=
  { type := "title"
    elements := [{ type := "text", source := "", content := "Product Collection"
                   dataField := none
                   position := { x := 10, y := 40, width := 80, height := 20 }
                   style := some { fontSize := 36, color := "#000000", fontWeight := "bold"
                                   textAlign := "center", backgroundColor := ""
                                   textDecoration := "", borderRadius := "" }
                   zIndex := 1 }] } ::
  carouselProductSlides csvData 0 products

/-- `SmartLayout.calculateGridPriority(productCount)`. -/
def calculateGridPriority (productCount : Nat) : Nat :=
  if productCount ≥ 9 then 5
  else if productCount ≥ 6 then 4
  else if productCount ≥ 4 then 3
  else if productCount ≥ 2 then 2
  else 1

/-- Descending order on the `priority` field, the order the JS comparator
`(a, b) => b.priority - a.priority` sorts into. -/
def layoutGE (a b : Layout) : Prop := b.priority ≤ a.priority

instance : DecidableRel layoutGE := fun a b => Nat.decLe b.priority a.priority

instance : IsTotal Layout layoutGE :=
  ⟨fun a b => le_total b.priority a.priority⟩

instance : IsTrans Layout layoutGE :=
  ⟨fun _ _ _ h h' => le_trans h' h⟩

/-- `SmartLayout.generateLayoutRecommendations(products, frameInfo, icons,
csvData)`: push the four template layouts, then sort by descending priority
(a stable sort, like the JS engine's). -/
def generateLayoutRecommendations (products : List ProductImg)
    (frameInfo : Option FrameInfo) (icons : List IconImg)
    (csvData : Option (List CsvRow)) : List Layout :=
  let layouts : List Layout :=
    [{ type := "grid", name := "Product Grid"
       description := "Organized grid layout perfect for catalogs"
       recommendedSize := (1200, 1200)
       elements := createGridElements products frameInfo csvData
       slides := []
       priority := calculateGridPriority products.length },
     { type := "banner", name := "Campaign Banner"
       description := "Wide banner layout for social media"
       recommendedSize := (1200, 630)
       elements := createBannerElements products frameInfo icons csvData
       slides := []
       priority := 4 },
     { type := "story", name := "Story Format"
       description := "Vertical layout for Instagram Stories"
       recommendedSize := (1080, 1920)
       elements := createStoryElements products frameInfo icons csvData
       slides := []
       priority := 3 },
     { type := "carousel", name := "Product Carousel"
       description := "Multiple slides for product showcases"
       recommendedSize := (1080, 1080)
       elements := []
       slides := createCarouselSlides products frameInfo csvData
       priority := 5 }]
  layouts.insertionSort layoutGE

/-- The paint-order contract the generated elements actually satisfy: frames
at `zIndex 0`, photographic content at `1`, icons at `2`, CSV-derived
text/badge elements (the ones carrying a `dataField`) at `≥ 10`, and the
hard-coded placeholder/title texts (no `dataField`) at `1` or `2`. -/
def zIndexContract (e : LayoutElement) : Prop :=
  (e.type = "frame" → e.zIndex = 0) ∧
  (e.type = "image" → e.zIndex = 1) ∧
  (e.type = "icon" → e.zIndex = 2) ∧
  ((e.type = "text" ∨ e.type = "badge") → e.dataField.isSome → 10 ≤ e.zIndex) ∧
  ((e.type = "text" ∨ e.type = "badge") → e.dataField = none → (e.zIndex = 1 ∨ e.zIndex = 2))

instance (e : LayoutElement) : Decidable (zIndexContract e) := by
  unfold zIndexContract; infer_instance

/-! ## Lemmas

General facts about the JS `Map`/object model and the loop bodies, shared by
the claim theorems below. -/

theorem mapGet_mapSet_self (m : List (String × α)) (k : String) (v : α) :
    mapGet (mapSet m k v) k = some v := by
  induction m with
  | nil => simp [mapSet, mapGet]
  | cons p rest ih =>
    by_cases h : p.1 = k
    · simp [mapSet, h, mapGet]
    · simp [mapSet, h, mapGet, ih]

theorem mapGet_mapSet_of_ne (m : List (String × α)) {k k' : String} (v : α)
    (h : k' ≠ k) : mapGet (mapSet m k v) k' = mapGet m k' := by
  induction m with
  | nil => simp [mapSet, mapGet, Ne.symm h]
  | cons p rest ih =>
    by_cases hp : p.1 = k
    · subst hp
      have hpk : p.1 ≠ k' := fun h2 => h (h2.symm)
      simp [mapSet, mapGet, hpk, Ne.symm h]
    · simp only [mapSet, if_neg hp]
      by_cases hpk : p.1 = k'
      · simp [mapGet, hpk]
      · simp [mapGet, hpk, ih]

theorem mapHas_of_mapGet {m : List (String × α)} {k : String} {v : α}
    (h : mapGet m k = some v) : mapHas m k = true := by
  induction m with
  | nil => simp [mapGet] at h
  | cons p rest ih =>
    by_cases hp : p.1 = k
    · simp [mapHas, hp]
    · simp only [mapGet, if_neg hp] at h
      simp [mapHas, hp, ih h]

theorem mapGet_eq_none_of_not_has {m : List (String × α)} {k : String}
    (h : mapHas m k = false) : mapGet m k = none := by
  induction m with
  | nil => simp [mapGet]
  | cons p rest ih =>
    by_cases hp : p.1 = k
    · simp [mapHas, hp] at h
    · simp only [mapHas, if_neg hp] at h
      simp [mapGet, hp, ih h]

theorem mapHas_iff (m : List (String × α)) (k : String) :
    mapHas m k = true ↔ k ∈ m.map Prod.fst := by
  induction m with
  | nil => simp [mapHas]
  | cons p rest ih =>
    simp only [mapHas, List.map_cons, List.mem_cons]
    by_cases hp : p.1 = k
    · simp [hp]
    · rw [if_neg hp]
      constructor
      · intro h
        exact Or.inr (ih.mp h)
      · intro h
        rcases h with h | h
        · exact absurd h.symm hp
        · simp [ih.mpr h]

theorem mapHas_mapSet_self (m : List (String × α)) (k : String) (v : α) :
    mapHas (mapSet m k v) k = true :=
  mapHas_of_mapGet (mapGet_mapSet_self m k v)

theorem keys_mapSet_mono {m : List (String × α)} {k' : String} (k : String) (v : α)
    (h : k' ∈ m.map Prod.fst) : k' ∈ (mapSet m k v).map Prod.fst := by
  induction m with
  | nil => simp at h
  | cons p rest ih =>
    by_cases hp : p.1 = k
    · simp only [mapSet, if_pos hp]
      simp only [List.map_cons, List.mem_cons] at h ⊢
      rcases h with h | h
      · exact Or.inl (hp ▸ h)
      · exact Or.inr h
    · simp only [mapSet, if_neg hp]
      simp only [List.map_cons, List.mem_cons] at h ⊢
      rcases h with h | h
      · exact Or.inl h
      · exact Or.inr (ih h)

theorem mapHas_mapSet_mono {m : List (String × α)} {k' : String} (k : String) (v : α)
    (h : mapHas m k' = true) : mapHas (mapSet m k v) k' = true := by
  rw [mapHas_iff] at h ⊢
  exact keys_mapSet_mono k v h

theorem mem_mapSet {m : List (String × α)} {k : String} {v : α} {q : String × α}
    (h : q ∈ mapSet m k v) : q = (k, v) ∨ q ∈ m := by
  induction m with
  | nil => simpa [mapSet] using h
  | cons p rest ih =>
    by_cases hp : p.1 = k
    · simp only [mapSet, if_pos hp, List.mem_cons] at h
      rcases h with h | h
      · exact Or.inl h
      · exact Or.inr (List.mem_cons_of_mem _ h)
    · simp only [mapSet, if_neg hp, List.mem_cons] at h
      rcases h with h | h
      · exact Or.inr (h ▸ List.mem_cons_self _ _)
      · rcases ih h with h2 | h2
        · exact Or.inl h2
        · exact Or.inr (List.mem_cons_of_mem _ h2)

theorem mapGet_eq_find? (m : List (String × α)) (k : String) :
    mapGet m k = (m.find? (fun p => p.1 = k)).map Prod.snd := by
  induction m with
  | nil => simp [mapGet]
  | cons p rest ih =>
    by_cases h : p.1 = k
    · simp [mapGet, h, List.find?_cons, ih]
    · simp [mapGet, h, List.find?_cons, ih]

theorem jsToLower_eq_empty_iff (s : String) : jsToLower s = "" ↔ s = "" := by
  constructor
  · intro h
    have hd : (jsToLower s).data = [] := congrArg String.data h
    simp only [jsToLower, List.map_eq_nil_iff] at hd
    cases s with
    | mk data => simp_all
  · intro h
    subst h
    rfl

theorem jsIncludes_empty_sub (s : String) : jsIncludes s "" = true := by
  simp [jsIncludes]

theorem jsIncludes_of_empty {sub : String} (h : jsIncludes "" sub = true) : sub = "" := by
  simp only [jsIncludes, decide_eq_true_eq] at h
  have : sub.data = [] := List.eq_nil_of_infix_nil h
  cases sub with
  | mk data => simp_all

/-- `buildSkuMapFrom` looks up to the latest matching record, falling back to
the initial map: a JS `Map` populated in input order retains the last `set`
value for every key. -/
theorem mapGet_buildSkuMapFrom (l : List ProductRec) (m : List (String × SkuEntry))
    (i : Nat) (k : String) :
    mapGet (buildSkuMapFrom m i l) k =
      match lastWithSkuFrom i k l with
      | some e => some e
      | none => mapGet m k := by
  induction l generalizing m i with
  | nil => simp [buildSkuMapFrom, lastWithSkuFrom]
  | cons r rest ih =>
    simp only [buildSkuMapFrom, lastWithSkuFrom]
    rw [ih]
    cases hrest : lastWithSkuFrom (i + 1) k rest with
    | some e => simp
    | none =>
      by_cases hsku : r.sku ≠ ""
      · by_cases hk : jsToLower r.sku = k
        · rw [if_pos (⟨hsku, hk⟩ : r.sku ≠ "" ∧ jsToLower r.sku = k), if_pos hsku, hk,
            mapGet_mapSet_self]
        · have hcond : ¬(r.sku ≠ "" ∧ jsToLower r.sku = k) := fun hc => hk hc.2
          rw [if_neg hcond, if_pos hsku, mapGet_mapSet_of_ne _ _ (fun h => hk h.symm)]
      · have hcond : ¬(r.sku ≠ "" ∧ jsToLower r.sku = k) := fun hc => hsku hc.1
        rw [if_neg hcond, if_neg hsku]

/-- Every key of the SKU lookup is the lower-casing of some non-empty record
SKU; in particular no key is the empty string. -/
theorem keys_buildSkuMapFrom (l : List ProductRec) (m : List (String × SkuEntry)) (i : Nat)
    (h : ∀ p ∈ m, p.1 ≠ "") :
    ∀ p ∈ buildSkuMapFrom m i l, p.1 ≠ "" := by
  induction l generalizing m i with
  | nil => simpa [buildSkuMapFrom] using h
  | cons r rest ih =>
    simp only [buildSkuMapFrom]
    apply ih
    by_cases hsku : r.sku ≠ ""
    · rw [if_pos hsku]
      intro p hp
      rcases mem_mapSet hp with hq | hq
      · rw [hq]
        simpa [jsToLower_eq_empty_iff] using hsku
      · exact h p hq
    · rw [if_neg hsku]
      exact h

theorem mapHas_buildSkuMapFrom_mono (l : List ProductRec) (m : List (String × SkuEntry))
    (i : Nat) {k : String} (h : mapHas m k = true) :
    mapHas (buildSkuMapFrom m i l) k = true := by
  induction l generalizing m i with
  | nil => simpa [buildSkuMapFrom] using h
  | cons r rest ih =>
    simp only [buildSkuMapFrom]
    apply ih
    by_cases hsku : r.sku ≠ ""
    · rw [if_pos hsku]
      exact mapHas_mapSet_mono _ _ h
    · rwa [if_neg hsku]

/-- A record with a non-empty SKU leaves its (lower-cased) key in the
lookup. -/
theorem mapHas_buildSkuMapFrom_of_mem {l : List ProductRec} {r : ProductRec}
    (m : List (String × SkuEntry)) (i : Nat) (hr : r ∈ l) (hsku : r.sku ≠ "") :
    mapHas (buildSkuMapFrom m i l) (jsToLower r.sku) = true := by
  induction l generalizing m i with
  | nil => cases hr
  | cons q rest ih =>
    simp only [buildSkuMapFrom]
    rcases List.mem_cons.mp hr with hq | hq
    · subst hq
      apply mapHas_buildSkuMapFrom_mono
      rw [if_pos hsku]
      exact mapHas_mapSet_self _ _ _
    · exact ih _ _ hq

/-- Unrolling the `images.forEach(...)` accumulation: the matched entries are
a `filterMap` and the unmatched images a `filter` of the input, in input
order. -/
theorem foldl_matchImagesStep (sm : List (String × SkuEntry)) (l : List ImageRef)
    (acc : List MatchedEntry × List ImageRef) :
    l.foldl (matchImagesStep sm) acc =
      (acc.1 ++ l.filterMap (fun img =>
         (matchOneImage sm img).map (fun p => ⟨img, p, p.1.sku⟩)),
       acc.2 ++ l.filter (fun img => (matchOneImage sm img).isNone)) := by
  induction l generalizing acc with
  | nil => simp
  | cons img rest ih =>
    simp only [List.foldl_cons, List.filterMap_cons, List.filter_cons]
    rw [ih]
    cases h : matchOneImage sm img with
    | some p =>
      simp [matchImagesStep, h]
    | none =>
      simp [matchImagesStep, h]

theorem matched_eq_filterMap (images : List ImageRef) (csvData : List ProductRec) :
    (matchImagesToProducts images csvData).matched =
      images.filterMap (fun img =>
        (matchOneImage (buildSkuMap csvData) img).map (fun p => ⟨img, p, p.1.sku⟩)) := by
  simp [matchImagesToProducts, foldl_matchImagesStep]

theorem unmatchedImages_eq_filter (images : List ImageRef) (csvData : List ProductRec) :
    (matchImagesToProducts images csvData).unmatchedImages =
      images.filter (fun img => (matchOneImage (buildSkuMap csvData) img).isNone) := by
  simp [matchImagesToProducts, foldl_matchImagesStep]

/-- Strategy 1 short-circuits: a successful exact lookup decides the match. -/
theorem matchOneImage_of_mapGet {sm : List (String × SkuEntry)} {img : ImageRef} {v : SkuEntry}
    (h : mapGet sm (jsToLower (nameWithoutExt (imageName img))) = some v) :
    matchOneImage sm img = some v := by
  simp only [matchOneImage, mapHas_of_mapGet h, if_true, h]

/-- Whatever strategy hits, the paired value is the value of some lookup
entry. -/
theorem matchOneImage_mem {sm : List (String × SkuEntry)} {img : ImageRef} {v : SkuEntry}
    (h : matchOneImage sm img = some v) : ∃ p ∈ sm, p.2 = v := by
  simp only [matchOneImage] at h
  cases hs : (if mapHas sm (jsToLower (nameWithoutExt (imageName img))) then
      mapGet sm (jsToLower (nameWithoutExt (imageName img))) else none) with
  | some p =>
    simp only [hs] at h
    have hp : p = v := Option.some.inj h
    subst hp
    have hget : mapGet sm (jsToLower (nameWithoutExt (imageName img))) = some p := by
      by_cases hhas : mapHas sm (jsToLower (nameWithoutExt (imageName img))) = true
      · rwa [if_pos hhas] at hs
      · rw [if_neg hhas] at hs
        cases hs
    rw [mapGet_eq_find?] at hget
    rcases Option.map_eq_some'.mp hget with ⟨e, hfind, he2⟩
    exact ⟨e, List.mem_of_find?_eq_some hfind, he2⟩
  | none =>
    simp only [hs] at h
    cases h2 : sm.find? (fun e => jsIncludes (jsToLower (nameWithoutExt (imageName img))) e.1) with
    | some e =>
      simp only [h2] at h
      exact ⟨e, List.mem_of_find?_eq_some h2, Option.some.inj h⟩
    | none =>
      simp only [h2] at h
      cases h3 : sm.find? (fun e => jsIncludes e.1 (jsToLower (nameWithoutExt (imageName img)))) with
      | some e =>
        simp only [h3] at h
        exact ⟨e, List.mem_of_find?_eq_some h3, Option.some.inj h⟩
      | none =>
        simp only [h3] at h
        cases h

/-- `Map.set` keeps the key list duplicate-free. -/
theorem keys_mapSet_nodup {m : List (String × α)} {k : String} (v : α)
    (h : (m.map Prod.fst).Nodup) : ((mapSet m k v).map Prod.fst).Nodup := by
  induction m with
  | nil => simp [mapSet]
  | cons p rest ih =>
    simp only [List.map_cons, List.nodup_cons] at h
    by_cases hp : p.1 = k
    · simp only [mapSet, if_pos hp, List.map_cons, List.nodup_cons]
      exact ⟨hp ▸ h.1, h.2⟩
    · simp only [mapSet, if_neg hp, List.map_cons, List.nodup_cons]
      refine ⟨?_, ih h.2⟩
      intro hc
      rcases List.mem_map.mp hc with ⟨q, hq, hq1⟩
      rcases mem_mapSet hq with rfl | hqm
      · exact hp hq1.symm
      · exact h.1 (hq1 ▸ List.mem_map_of_mem Prod.fst hqm)

/-- The SKU lookup's key list is duplicate-free. -/
theorem keys_buildSkuMapFrom_nodup (l : List ProductRec) (m : List (String × SkuEntry))
    (i : Nat) (h : (m.map Prod.fst).Nodup) :
    ((buildSkuMapFrom m i l).map Prod.fst).Nodup := by
  induction l generalizing m i with
  | nil => simpa [buildSkuMapFrom] using h
  | cons r rest ih =>
    simp only [buildSkuMapFrom]
    apply ih
    by_cases hsku : r.sku ≠ ""
    · rw [if_pos hsku]
      exact keys_mapSet_nodup _ h
    · rwa [if_neg hsku]

/-- In a duplicate-free association list, membership determines the lookup. -/
theorem mapGet_of_mem_nodup {m : List (String × α)} {p : String × α}
    (hnd : (m.map Prod.fst).Nodup) (hp : p ∈ m) : mapGet m p.1 = some p.2 := by
  induction m with
  | nil => cases hp
  | cons q rest ih =>
    simp only [List.map_cons, List.nodup_cons] at hnd
    rcases List.mem_cons.mp hp with rfl | hp2
    · simp [mapGet]
    · have hne : q.1 ≠ p.1 := by
        intro hc
        exact hnd.1 (hc ▸ List.mem_map_of_mem Prod.fst hp2)
      simp only [mapGet, if_neg hne]
      exact ih hnd.2 hp2

/-- Every key of the SKU lookup is the lower-casing of its own value's SKU. -/
theorem key_eq_toLower_sku {l : List ProductRec} (m : List (String × SkuEntry)) (i : Nat)
    (hm : ∀ q ∈ m, q.1 = jsToLower q.2.1.sku) :
    ∀ p ∈ buildSkuMapFrom m i l, p.1 = jsToLower p.2.1.sku := by
  induction l generalizing m i with
  | nil => simpa [buildSkuMapFrom] using hm
  | cons r rest ih =>
    simp only [buildSkuMapFrom]
    apply ih
    by_cases hsku : r.sku ≠ ""
    · rw [if_pos hsku]
      intro q hq
      rcases mem_mapSet hq with rfl | hqm
      · rfl
      · exact hm q hqm
    · rwa [if_neg hsku]

/-- A successful lookup in the SKU map is the latest matching record. -/
theorem lastWithSku_of_mapGet {csvData : List ProductRec} {k : String} {v : SkuEntry}
    (h : mapGet (buildSkuMap csvData) k = some v) : lastWithSku csvData k = some v := by
  rw [buildSkuMap, mapGet_buildSkuMapFrom] at h
  rw [lastWithSku]
  cases hl : lastWithSkuFrom 0 k csvData with
  | some e =>
    rw [hl] at h
    exact h
  | none =>
    rw [hl] at h
    simp [mapGet] at h

theorem mapGet_isSome_of_has {m : List (String × α)} {k : String}
    (h : mapHas m k = true) : ∃ v, mapGet m k = some v := by
  induction m with
  | nil => simp [mapHas] at h
  | cons p rest ih =>
    by_cases hp : p.1 = k
    · exact ⟨p.2, by simp [mapGet, hp]⟩
    · simp only [mapHas, if_neg hp] at h
      rcases ih h with ⟨v, hv⟩
      exact ⟨v, by simp [mapGet, hp, hv]⟩

/-! ## Claim theorems -/

theorem matchRate_eq (images : List ImageRef) (csvData : List ProductRec) :
    (matchImagesToProducts images csvData).matchRate =
      if images.length = 0 then 0
      else ((round ((((matchImagesToProducts images csvData).matched.length : ℚ) /
        (images.length : ℚ) * 100) * 10) : ℤ) : ℚ) / 10 := by
  by_cases h : images.length = 0
  · simp [matchImagesToProducts, h]
  · have hpos : images.length > 0 := Nat.pos_of_ne_zero h
    simp [matchImagesToProducts, h, hpos]

/-- **C1.** The returned `matchRate` equals `matched.length / totalImages *
100` rounded to one decimal place, is exactly the number `0` when the image
list is empty (never an undefined/NaN value), and for 2 images with 1 match
it is `50.0`. -/
theorem matchRate_spec (images : List ImageRef) (csvData : List ProductRec) :
    ((matchImagesToProducts images csvData).matchRate =
      if images.length = 0 then 0
      else ((round ((((matchImagesToProducts images csvData).matched.length : ℚ) /
        (images.length : ℚ) * 100) * 10) : ℤ) : ℚ) / 10) ∧
    (matchImagesToProducts [] csvData).matchRate = 0 ∧
    (matchImagesToProducts [⟨"SKU123.jpg", "SKU123.jpg"⟩, ⟨"zzz.png", "zzz.png"⟩]
      [⟨"SKU123", 0⟩]).matched.length = 1 ∧
    (matchImagesToProducts [⟨"SKU123.jpg", "SKU123.jpg"⟩, ⟨"zzz.png", "zzz.png"⟩]
      [⟨"SKU123", 0⟩]).matchRate = 50 := by
  refine ⟨matchRate_eq images csvData, by rw [matchRate_eq]; simp, by decide, ?_⟩
  rw [matchRate_eq]
  rw [show (matchImagesToProducts [⟨"SKU123.jpg", "SKU123.jpg"⟩, ⟨"zzz.png", "zzz.png"⟩]
      [⟨"SKU123", 0⟩]).matched.length = 1 from by decide]
  norm_num [round_eq]

/-- **C2 counterexample.** Two records share the SKU `"A"`; the image
`a.jpg` exact-matches that SKU yet is paired with the *second* record
(`rowIndex 1`, `csvIndex 1`), not the first: `Map.set` overwrites, so the
later duplicate wins, refuting first-occurrence-wins. -/
theorem skuMap_first_wins_refuted :
    (matchImagesToProducts [⟨"a.jpg", "a.jpg"⟩] [⟨"A", 0⟩, ⟨"A", 1⟩]).matched =
      [{ image := ⟨"a.jpg", "a.jpg"⟩, product := (⟨"A", 1⟩, 1), matchedSku := "A" }] ∧
    (⟨"A", 1⟩ : ProductRec) ≠ ⟨"A", 0⟩ := by
  decide

/-- **C2 (amended).** When records share a SKU (case-insensitively), the
*last* occurrence in declaration order wins: the lookup retains the latest
such record, and every matched image — under whichever of the three
strategies it matched — is paired with the latest record whose SKU
lower-cases to its matched key; in particular every image that matches the
duplicated SKU is paired with the latest duplicate, and the earlier ones are
shadowed. -/
theorem skuMap_duplicate_last_wins (csvData : List ProductRec) (images : List ImageRef)
    (k : String) (r : ProductRec) (i : Nat)
    (hlast : lastWithSku csvData k = some (r, i)) :
    mapGet (buildSkuMap csvData) k = some (r, i) ∧
    ∀ m ∈ (matchImagesToProducts images csvData).matched,
      lastWithSku csvData (jsToLower m.matchedSku) = some m.product ∧
      (jsToLower m.matchedSku = k → m.product = (r, i) ∧ m.matchedSku = r.sku) := by
  have hget : mapGet (buildSkuMap csvData) k = some (r, i) := by
    rw [buildSkuMap, mapGet_buildSkuMapFrom]
    rw [lastWithSku] at hlast
    rw [hlast]
  refine ⟨hget, ?_⟩
  intro m hm
  rw [matched_eq_filterMap] at hm
  rcases List.mem_filterMap.mp hm with ⟨img, himg, hmap⟩
  cases hone : matchOneImage (buildSkuMap csvData) img with
  | none => rw [hone] at hmap; simp at hmap
  | some p =>
    rw [hone] at hmap
    simp only [Option.map_some'] at hmap
    have hmeq : m = ⟨img, p, p.1.sku⟩ := by
      injection hmap with h2
      exact h2.symm
    subst hmeq
    rcases matchOneImage_mem hone with ⟨q, hq, hq2⟩
    have hkeys : ((buildSkuMap csvData).map Prod.fst).Nodup :=
      keys_buildSkuMapFrom_nodup csvData [] 0 (by simp)
    have hkeyeq : q.1 = jsToLower q.2.1.sku :=
      key_eq_toLower_sku [] 0 (by simp) q hq
    have hlastq : lastWithSku csvData q.1 = some q.2 :=
      lastWithSku_of_mapGet (mapGet_of_mem_nodup hkeys hq)
    have hkey2 : jsToLower p.1.sku = q.1 := by rw [hkeyeq, hq2]
    constructor
    · show lastWithSku csvData (jsToLower p.1.sku) = some p
      rw [hkey2, hlastq, hq2]
    · intro hk
      have hlp : lastWithSku csvData k = some p := by
        rw [← hk, hkey2, hlastq, hq2]
      rw [hlast] at hlp
      have hp : p = (r, i) := (Option.some.inj hlp).symm
      subst hp
      exact ⟨rfl, rfl⟩

/-- Witness for the amended C2 at a concrete duplicate-SKU input matched via
the substring strategy (`photo-A.jpg` against two records with SKU `"A"`). -/
theorem skuMap_duplicate_last_wins_witness :
    mapGet (buildSkuMap [⟨"A", 0⟩, ⟨"A", 1⟩]) "a" = some (⟨"A", 1⟩, 1) ∧
    (matchImagesToProducts [⟨"photo-A.jpg", "photo-A.jpg"⟩] [⟨"A", 0⟩, ⟨"A", 1⟩]).matched.map
      (fun m => m.product) = [(⟨"A", 1⟩, 1)] := by
  have h := skuMap_duplicate_last_wins [⟨"A", 0⟩, ⟨"A", 1⟩]
    [⟨"photo-A.jpg", "photo-A.jpg"⟩] "a" ⟨"A", 1⟩ 1 (by decide)
  exact ⟨h.1, by decide⟩

/-- **C4.** The matcher derives the base name (file name without extension,
lower-cased) and applies exactly three strategies in strict order with
short-circuit: exact key equality, then some known SKU occurring inside the
base name, then the base name occurring inside some known SKU; an image with
no hit lands in `unmatchedImages`, and a record whose (non-empty) SKU was
never the target of any match lands in `unmatchedProducts`. -/
theorem matcher_three_strategies (images : List ImageRef) (csvData : List ProductRec) :
    (∀ img : ImageRef, matchOneImage (buildSkuMap csvData) img =
      threeStrategyScan (buildSkuMap csvData) (jsToLower (nameWithoutExt (imageName img)))) ∧
    (matchImagesToProducts images csvData).matched =
      images.filterMap (fun img =>
        (matchOneImage (buildSkuMap csvData) img).map (fun p => ⟨img, p, p.1.sku⟩)) ∧
    (matchImagesToProducts images csvData).unmatchedImages =
      images.filter (fun img => (matchOneImage (buildSkuMap csvData) img).isNone) ∧
    (matchImagesToProducts images csvData).unmatchedProducts =
      csvData.filter (fun r => r.sku ≠ "" &&
        !(List.contains ((matchImagesToProducts images csvData).matched.map
            (fun m => jsToLower m.matchedSku)) (jsToLower r.sku))) := by
  refine ⟨?_, matched_eq_filterMap images csvData, unmatchedImages_eq_filter images csvData, rfl⟩
  intro img
  simp only [matchOneImage, threeStrategyScan]
  have hif : (if mapHas (buildSkuMap csvData) (jsToLower (nameWithoutExt (imageName img))) then
      mapGet (buildSkuMap csvData) (jsToLower (nameWithoutExt (imageName img))) else none) =
      mapGet (buildSkuMap csvData) (jsToLower (nameWithoutExt (imageName img))) := by
    by_cases hhas : mapHas (buildSkuMap csvData) (jsToLower (nameWithoutExt (imageName img))) = true
    · simp [hhas]
    · have hf : mapHas (buildSkuMap csvData) (jsToLower (nameWithoutExt (imageName img))) = false :=
        Bool.eq_false_iff.mpr hhas
      simp [hf, mapGet_eq_none_of_not_has hf]
  rw [hif, mapGet_eq_find?]
  cases h1 : (buildSkuMap csvData).find?
      (fun e => e.1 = jsToLower (nameWithoutExt (imageName img))) with
  | some e => rfl
  | none => rfl

/-- **C10.** An image whose base file name is empty is never unmatched when
some record has a non-empty SKU: strategies 1 and 2 find nothing for the
empty base name, but strategy 3 (base name contained in SKU) accepts every
key, so the scan returns the first entry of the lookup in insertion order. -/
theorem emptyBaseName_matches_first_entry (csvData : List ProductRec) (img : ImageRef)
    (r : ProductRec) (hbase : nameWithoutExt (imageName img) = "")
    (hr : r ∈ csvData) (hsku : r.sku ≠ "") :
    mapHas (buildSkuMap csvData) "" = false ∧
    (buildSkuMap csvData).find? (fun e => jsIncludes "" e.1) = none ∧
    (∃ e, (buildSkuMap csvData).head? = some e ∧
      (buildSkuMap csvData).find? (fun e2 => jsIncludes e2.1 "") = some e ∧
      matchOneImage (buildSkuMap csvData) img = some e.2) ∧
    ∀ images, img ∈ images →
      img ∉ (matchImagesToProducts images csvData).unmatchedImages := by
  have hkeys : ∀ p ∈ buildSkuMap csvData, p.1 ≠ "" :=
    keys_buildSkuMapFrom csvData [] 0 (by simp)
  have hne : buildSkuMap csvData ≠ [] := by
    have hh := mapHas_buildSkuMapFrom_of_mem [] 0 hr hsku
    intro hnil
    rw [buildSkuMap] at hnil
    rw [hnil] at hh
    simp [mapHas] at hh
  have hhas : mapHas (buildSkuMap csvData) "" = false := by
    cases hcase : mapHas (buildSkuMap csvData) "" with
    | false => rfl
    | true =>
      rcases List.mem_map.mp ((mapHas_iff _ _).mp hcase) with ⟨p, hp, hp1⟩
      exact absurd hp1 (hkeys p hp)
  have hfind2 : (buildSkuMap csvData).find? (fun e => jsIncludes "" e.1) = none := by
    apply List.find?_eq_none.mpr
    intro e he hc
    exact hkeys e he (jsIncludes_of_empty hc)
  obtain ⟨p0, rest0, hcons⟩ : ∃ p0 rest0, buildSkuMap csvData = p0 :: rest0 := by
    cases hmap : buildSkuMap csvData with
    | nil => exact absurd hmap hne
    | cons a l => exact ⟨a, l, rfl⟩
  have hbase0 : jsToLower (nameWithoutExt (imageName img)) = "" := by rw [hbase]; rfl
  have hfind3 : (buildSkuMap csvData).find? (fun e2 => jsIncludes e2.1 "") = some p0 := by
    rw [hcons, List.find?_cons, jsIncludes_empty_sub]
  have hone : matchOneImage (buildSkuMap csvData) img = some p0.2 := by
    simp only [matchOneImage, hbase0, hhas, Bool.false_eq_true, if_false,
      mapGet_eq_none_of_not_has hhas, hfind2, hfind3]
  refine ⟨hhas, hfind2, ⟨p0, by rw [hcons]; rfl, hfind3, hone⟩, ?_⟩
  intro images himgs hcon
  rw [unmatchedImages_eq_filter] at hcon
  rcases List.mem_filter.mp hcon with ⟨_, hpred⟩
  rw [hone] at hpred
  simp at hpred

/-- Witness for C10 at a concrete empty-named image. -/
theorem emptyBaseName_matches_first_entry_witness :
    (⟨"", ""⟩ : ImageRef) ∉
      (matchImagesToProducts [⟨"", ""⟩] [⟨"SKU9", 0⟩]).unmatchedImages ∧
    (matchImagesToProducts [⟨"", ""⟩] [⟨"SKU9", 0⟩]).matched.map
      (fun m => m.product) = [(⟨"SKU9", 0⟩, 0)] := by
  have h := emptyBaseName_matches_first_entry [⟨"SKU9", 0⟩] ⟨"", ""⟩ ⟨"SKU9", 0⟩
    (by decide) (by decide) (by decide)
  exact ⟨h.2.2.2 [⟨"", ""⟩] (by decide), by decide⟩

/-- **C6.** `recommendedUse` is a pure function of `aspectRatio = width /
height`: `banner` above `3/2`, `vertical` below `4/5`, `square` otherwise;
both boundary ratios classify as `square` per the strict inequalities. -/
theorem recommendedUse_spec :
    (∀ w h w2 h2 : Nat, (w : ℚ) / (h : ℚ) = (w2 : ℚ) / (h2 : ℚ) →
      determineRecommendedUse w h = determineRecommendedUse w2 h2) ∧
    (∀ w h : Nat,
      ((w : ℚ) / (h : ℚ) > 3/2 → determineRecommendedUse w h = "banner") ∧
      ((w : ℚ) / (h : ℚ) < 4/5 → determineRecommendedUse w h = "vertical") ∧
      (4/5 ≤ (w : ℚ) / (h : ℚ) → (w : ℚ) / (h : ℚ) ≤ 3/2 →
        determineRecommendedUse w h = "square")) ∧
    determineRecommendedUse 3 2 = "square" ∧
    determineRecommendedUse 4 5 = "square" := by
  refine ⟨?_, ?_, ?_, ?_⟩
  · intro w h w2 h2 hratio
    simp only [determineRecommendedUse]
    rw [hratio]
  · intro w h
    refine ⟨?_, ?_, ?_⟩
    · intro h1
      simp only [determineRecommendedUse]
      rw [if_pos h1]
    · intro h1
      simp only [determineRecommendedUse]
      rw [if_neg (by linarith), if_pos h1]
    · intro h1 h2
      simp only [determineRecommendedUse]
      rw [if_neg (by linarith), if_neg (by linarith)]
  · norm_num [determineRecommendedUse]
  · norm_num [determineRecommendedUse]

/-- Witness for C6 on one input per branch. -/
theorem recommendedUse_spec_witness :
    determineRecommendedUse 2 1 = "banner" ∧
    determineRecommendedUse 1 2 = "vertical" ∧
    determineRecommendedUse 1 1 = "square" :=
  ⟨(recommendedUse_spec.2.1 2 1).1 (by norm_num),
   (recommendedUse_spec.2.1 1 2).2.1 (by norm_num),
   (recommendedUse_spec.2.1 1 1).2.2 (by norm_num) (by norm_num)⟩

/-- **C7.** `layoutPriority` is non-decreasing in `width*height`, always lies
in `{1,...,5}`, and follows the strict-`>` bucketing, each boundary value
falling into the lower bucket. -/
theorem layoutPriority_spec :
    (∀ w h w2 h2 : Nat, w * h ≤ w2 * h2 →
      calculateLayoutPriority w h ≤ calculateLayoutPriority w2 h2) ∧
    (∀ w h : Nat, 1 ≤ calculateLayoutPriority w h ∧ calculateLayoutPriority w h ≤ 5) ∧
    calculateLayoutPriority 2000 1000 = 4 ∧
    calculateLayoutPriority 2000001 1 = 5 ∧
    calculateLayoutPriority 1000 1000 = 3 ∧
    calculateLayoutPriority 1000001 1 = 4 ∧
    calculateLayoutPriority 500000 1 = 2 ∧
    calculateLayoutPriority 500001 1 = 3 ∧
    calculateLayoutPriority 200000 1 = 1 ∧
    calculateLayoutPriority 200001 1 = 2 := by
  refine ⟨?_, ?_, by decide, by decide, by decide, by decide, by decide, by decide,
    by decide, by decide⟩
  · intro w h w2 h2 hle
    simp only [calculateLayoutPriority]
    revert hle
    generalize w * h = a
    generalize w2 * h2 = b
    intro hle
    split_ifs <;> omega
  · intro w h
    simp only [calculateLayoutPriority]
    split_ifs <;> omega

/-- Witness for C7's monotonicity at a concrete pair of resolutions. -/
theorem layoutPriority_spec_witness :
    calculateLayoutPriority 100 100 ≤ calculateLayoutPriority 2000 2000 :=
  layoutPriority_spec.1 100 100 2000 2000 (by norm_num)

/-- **C8.** When the base metadata is readable the analysis succeeds even if
every per-metric sub-computation throws, substituting brightness `128`,
complexity `0.1` and dominant color `#808080`; the analysis fails exactly
when the metadata read fails. -/
theorem analyzeImage_degrades (m : Metadata)
    (brightnessRaw complexityRaw colorRaw : Option RawData) (fileName : String) :
    (∃ a, analyzeImage (some m) brightnessRaw complexityRaw colorRaw fileName = .ok a ∧
      (brightnessRaw = none → a.brightness = 128) ∧
      (complexityRaw = none → a.complexity = 1/10) ∧
      (colorRaw = none → a.dominantColor = "#808080")) ∧
    analyzeImage none brightnessRaw complexityRaw colorRaw fileName =
      .error "Failed to analyze image" := by
  refine ⟨⟨_, rfl, ?_, ?_, ?_⟩, rfl⟩
  · intro hnone
    subst hnone
    rfl
  · intro hnone
    subst hnone
    rfl
  · intro hnone
    subst hnone
    rfl

/-- Witness for C8 at a concrete metadata record with all three metric
computations failing. -/
theorem analyzeImage_degrades_witness :
    ((analyzeImage (some ⟨100, 50, "png"⟩) none none none "a.png").toOption.map
      ImageAnalysis.brightness = some 128) ∧
    ((analyzeImage (some ⟨100, 50, "png"⟩) none none none "a.png").toOption.map
      ImageAnalysis.complexity = some (1/10)) ∧
    ((analyzeImage (some ⟨100, 50, "png"⟩) none none none "a.png").toOption.map
      ImageAnalysis.dominantColor = some "#808080") := by
  obtain ⟨a, ha, hb, hc, hd⟩ :=
    (analyzeImage_degrades ⟨100, 50, "png"⟩ none none none "a.png").1
  rw [ha]
  exact ⟨by simp [Except.toOption, hb rfl], by simp [Except.toOption, hc rfl],
    by simp [Except.toOption, hd rfl]⟩

theorem objGet_objAssign_of_not_mem {r : JsObj} {k : String} (o : JsObj)
    (hk : k ∉ r.map Prod.fst) : objGet (objAssign o r) k = objGet o k := by
  induction r generalizing o with
  | nil => rfl
  | cons p rest ih =>
    simp only [List.map_cons, List.mem_cons, not_or] at hk
    simp only [objAssign, List.foldl_cons]
    rw [← objAssign]
    rw [ih _ hk.2]
    exact mapGet_mapSet_of_ne o p.2 hk.1

theorem objGet_objAssign_of_mem {r : JsObj} {k : String} {v : String} (o : JsObj)
    (hnd : (r.map Prod.fst).Nodup) (hv : objGet r k = some v) :
    objGet (objAssign o r) k = some v := by
  induction r generalizing o with
  | nil => simp [objGet, mapGet] at hv
  | cons p rest ih =>
    simp only [List.map_cons, List.nodup_cons] at hnd
    simp only [objAssign, List.foldl_cons]
    rw [← objAssign]
    by_cases hp : p.1 = k
    · have hveq : v = p.2 := by
        simp only [objGet, mapGet, if_pos hp] at hv
        exact (Option.some.inj hv).symm
      subst hveq
      rw [objGet_objAssign_of_not_mem _ (hp ▸ hnd.1)]
      simp only [objGet, objSet]
      rw [hp, mapGet_mapSet_self]
    · have hv2 : objGet rest k = some v := by
        simpa only [objGet, mapGet, if_neg hp] using hv
      exact ih _ hnd.2 hv2

theorem objGet_canonFold_of_not_mem (row : JsObj) {cm : List (String × List String)}
    {k : String} (o : JsObj) (hk : k ∉ cm.map Prod.fst) :
    objGet (cm.foldl (applyCanonical row) o) k = objGet o k := by
  induction cm generalizing o with
  | nil => rfl
  | cons e rest ih =>
    simp only [List.map_cons, List.mem_cons, not_or] at hk
    simp only [List.foldl_cons]
    rw [ih _ hk.2]
    simp only [applyCanonical]
    cases firstAliasValue row e.2 with
    | some v =>
      exact mapGet_mapSet_of_ne o v (fun h => hk.1 h)
    | none => rfl

theorem objGet_canonFold (row : JsObj) {cm : List (String × List String)}
    (o : JsObj) {standardKey : String} {variations : List String}
    (hmem : (standardKey, variations) ∈ cm) (hnd : (cm.map Prod.fst).Nodup) :
    objGet (cm.foldl (applyCanonical row) o) standardKey =
      match firstAliasValue row variations with
      | some v => some v
      | none => objGet o standardKey := by
  induction cm generalizing o with
  | nil => cases hmem
  | cons e rest ih =>
    simp only [List.map_cons, List.nodup_cons] at hnd
    simp only [List.foldl_cons]
    rcases List.mem_cons.mp hmem with he | he
    · have hkey : standardKey ∉ rest.map Prod.fst := by
        have : e.1 = standardKey := by rw [← he]
        exact this ▸ hnd.1
      rw [objGet_canonFold_of_not_mem row _ hkey, ← he]
      simp only [applyCanonical]
      cases hfa : firstAliasValue row variations with
      | some v =>
        simp only [objGet, objSet]
        rw [mapGet_mapSet_self]
      | none => rfl
    · have hne : standardKey ≠ e.1 := by
        intro hc
        exact hnd.1 (hc ▸ List.mem_map_of_mem Prod.fst he)
      rw [ih _ he hnd.2]
      cases hfa : firstAliasValue row variations with
      | some v => rfl
      | none =>
        simp only [applyCanonical]
        cases firstAliasValue row e.2 with
        | some v => exact mapGet_mapSet_of_ne o v hne
        | none => rfl

/-- **C5 counterexample.** A parsed row that contains the canonical `sku`
column with an *empty* value next to a non-empty `product_sku` alias: the
first alias with a non-empty value is `product_sku` (value `"ABC"`), yet the
normalized record binds `sku` to `""`, because `Object.assign(normalizedRow,
row)` runs after alias resolution and copies the original empty value back on
top. -/
theorem canonical_alias_priority_refuted :
    objGet (normalizeRow 0 [("sku", ""), ("product_sku", "ABC")]) "sku" = some "" ∧
    firstAliasValue [("sku", ""), ("product_sku", "ABC")]
      ["sku", "product_sku", "item_sku", "code", "product_code"] = some "ABC" ∧
    ("" : String) ≠ "ABC" := by
  decide

/-- **C5 (amended).** For every parsed row and canonical field: when the row
does not itself contain a column named exactly like the canonical key, the
canonical key is bound to the value of the first alias (in table-declaration
order) with a non-empty value; when the row does contain that column, its
original value (even an empty one) wins, because the originals are copied on
top after alias resolution.  All original column values are retained
alongside, so no information is lost. -/
theorem normalizeRow_amended (row : JsObj) (index : Nat) (standardKey : String)
    (variations : List String)
    (hmem : (standardKey, variations) ∈ columnMapping)
    (hnd : (row.map Prod.fst).Nodup) :
    (objGet row standardKey = none →
      objGet (normalizeRow index row) standardKey = firstAliasValue row variations) ∧
    (∀ v, objGet row standardKey = some v →
      objGet (normalizeRow index row) standardKey = some v) ∧
    (∀ k v, objGet row k = some v → objGet (normalizeRow index row) k = some v) := by
  have hndCM : (columnMapping.map Prod.fst).Nodup := by decide
  have hkey : standardKey ≠ "_rowIndex" := by
    have hmem2 : standardKey ∈ columnMapping.map Prod.fst :=
      List.mem_map_of_mem Prod.fst hmem
    fin_cases hmem2 <;> decide
  refine ⟨?_, ?_, ?_⟩
  · intro hnone
    have hknotrow : standardKey ∉ row.map Prod.fst := by
      intro hc
      rcases mapGet_isSome_of_has ((mapHas_iff row standardKey).mpr hc) with ⟨v, hv⟩
      rw [objGet] at hnone
      rw [hnone] at hv
      cases hv
    simp only [normalizeRow]
    rw [objGet_objAssign_of_not_mem _ hknotrow, objGet_canonFold row _ hmem hndCM]
    cases hfa : firstAliasValue row variations with
    | some v => rfl
    | none =>
      simp only [objGet, mapGet]
      rw [if_neg (fun h => hkey h.symm)]
  · intro v hv
    simp only [normalizeRow]
    exact objGet_objAssign_of_mem _ hnd hv
  · intro k v hv
    simp only [normalizeRow]
    exact objGet_objAssign_of_mem _ hnd hv

/-- Witness for the amended C5: alias resolution when the canonical column is
absent, canonical-column override, and retention of originals. -/
theorem normalizeRow_amended_witness :
    objGet (normalizeRow 0 [("product_sku", "ABC")]) "sku" = some "ABC" ∧
    objGet (normalizeRow 0 [("sku", "S1"), ("product_sku", "ABC")]) "sku" = some "S1" ∧
    objGet (normalizeRow 0 [("sku", "S1"), ("brand", "B")]) "brand" = some "B" := by
  have h1 := normalizeRow_amended [("product_sku", "ABC")] 0 "sku"
    ["sku", "product_sku", "item_sku", "code", "product_code"] (by decide) (by decide)
  have h2 := normalizeRow_amended [("sku", "S1"), ("product_sku", "ABC")] 0 "sku"
    ["sku", "product_sku", "item_sku", "code", "product_code"] (by decide) (by decide)
  have h3 := normalizeRow_amended [("sku", "S1"), ("brand", "B")] 0 "brand"
    ["brand", "brand_name", "manufacturer"] (by decide) (by decide)
  refine ⟨?_, h2.2.1 "S1" (by decide), h3.2.2 "brand" "B" (by decide)⟩
  rw [h1.1 (by decide)]
  decide

theorem sorted_insertionSort_priority (ls : List Layout) :
    ((ls.insertionSort layoutGE).map Layout.priority).Sorted (fun a b : Nat => b ≤ a) := by
  have hs := List.sorted_insertionSort layoutGE ls
  exact List.Pairwise.map Layout.priority (fun _ _ h => h) hs

/-- **C9.** The composer returns exactly four layouts sorted descending by
priority, with banner fixed at `4`, story at `3`, carousel at `5`, and grid's
priority computed from the product count by the `≥9→5, ≥6→4, ≥4→3, ≥2→2,
else 1` bucketing. -/
theorem composer_four_layouts (products : List ProductImg) (frameInfo : Option FrameInfo)
    (icons : List IconImg) (csvData : Option (List CsvRow)) :
    (generateLayoutRecommendations products frameInfo icons csvData).length = 4 ∧
    ((generateLayoutRecommendations products frameInfo icons csvData).map
      Layout.priority).Sorted (fun a b : Nat => b ≤ a) ∧
    ((generateLayoutRecommendations products frameInfo icons csvData).map
      (fun l => (l.type, l.priority))).Perm
      [("grid", calculateGridPriority products.length), ("banner", 4), ("story", 3),
       ("carousel", 5)] ∧
    calculateGridPriority 9 = 5 ∧ calculateGridPriority 8 = 4 ∧ calculateGridPriority 6 = 4 ∧
    calculateGridPriority 5 = 3 ∧ calculateGridPriority 4 = 3 ∧ calculateGridPriority 3 = 2 ∧
    calculateGridPriority 2 = 2 ∧ calculateGridPriority 1 = 1 ∧ calculateGridPriority 0 = 1 := by
  refine ⟨?_, ?_, ?_, by decide, by decide, by decide, by decide, by decide, by decide,
    by decide, by decide, by decide⟩
  · simp only [generateLayoutRecommendations]
    rw [List.length_insertionSort]
    rfl
  · simp only [generateLayoutRecommendations]
    exact sorted_insertionSort_priority _
  · simp only [generateLayoutRecommendations]
    exact List.Perm.map _ (List.perm_insertionSort layoutGE _)

theorem zc_frame {e : LayoutElement} (ht : e.type = "frame") (hz : e.zIndex = 0) :
    zIndexContract e := by
  refine ⟨fun _ => hz, fun hc => ?_, fun hc => ?_, fun hc _ => ?_, fun hc _ => ?_⟩
  · exact absurd (ht.symm.trans hc) (by decide)
  · exact absurd (ht.symm.trans hc) (by decide)
  · rcases hc with hc | hc <;> exact absurd (ht.symm.trans hc) (by decide)
  · rcases hc with hc | hc <;> exact absurd (ht.symm.trans hc) (by decide)

theorem zc_image {e : LayoutElement} (ht : e.type = "image") (hz : e.zIndex = 1) :
    zIndexContract e := by
  refine ⟨fun hc => ?_, fun _ => hz, fun hc => ?_, fun hc _ => ?_, fun hc _ => ?_⟩
  · exact absurd (ht.symm.trans hc) (by decide)
  · exact absurd (ht.symm.trans hc) (by decide)
  · rcases hc with hc | hc <;> exact absurd (ht.symm.trans hc) (by decide)
  · rcases hc with hc | hc <;> exact absurd (ht.symm.trans hc) (by decide)

theorem zc_icon {e : LayoutElement} (ht : e.type = "icon") (hz : e.zIndex = 2) :
    zIndexContract e := by
  refine ⟨fun hc => ?_, fun hc => ?_, fun _ => hz, fun hc _ => ?_, fun hc _ => ?_⟩
  · exact absurd (ht.symm.trans hc) (by decide)
  · exact absurd (ht.symm.trans hc) (by decide)
  · rcases hc with hc | hc <;> exact absurd (ht.symm.trans hc) (by decide)
  · rcases hc with hc | hc <;> exact absurd (ht.symm.trans hc) (by decide)

theorem zc_textBadge {e : LayoutElement} (ht : e.type = "text" ∨ e.type = "badge")
    (h1 : e.dataField.isSome → 10 ≤ e.zIndex)
    (h2 : e.dataField = none → e.zIndex = 1 ∨ e.zIndex = 2) : zIndexContract e := by
  refine ⟨fun hc => ?_, fun hc => ?_, fun hc => ?_, fun _ => h1, fun _ => h2⟩ <;>
    rcases ht with ht | ht <;> exact absurd (ht.symm.trans hc) (by decide)

theorem zIndexContract_textCSV {csvRow : Option CsvRow} {pos : ElemPos}
    {e : LayoutElement} (he : e ∈ createTextElementsFromCSV csvRow pos) :
    zIndexContract e := by
  cases csvRow with
  | none => simp [createTextElementsFromCSV] at he
  | some row =>
    simp only [createTextElementsFromCSV, List.mem_append] at he
    rcases he with ((h | h) | h) | h
    · split at h
      · rcases List.mem_singleton.mp h with rfl
        exact zc_textBadge (Or.inl rfl) (fun _ => by norm_num) (fun hc => by simp at hc)
      · simp at h
    · split at h
      · rcases List.mem_singleton.mp h with rfl
        exact zc_textBadge (Or.inl rfl) (fun _ => by norm_num) (fun hc => by simp at hc)
      · simp at h
    · split at h
      · split at h
        · rcases List.mem_cons.mp h with rfl | h2
          · exact zc_textBadge (Or.inl rfl) (fun _ => by norm_num) (fun hc => by simp at hc)
          · rcases List.mem_singleton.mp h2 with rfl
            exact zc_textBadge (Or.inl rfl) (fun _ => by norm_num) (fun hc => by simp at hc)
        · rcases List.mem_singleton.mp h with rfl
          exact zc_textBadge (Or.inl rfl) (fun _ => by norm_num) (fun hc => by simp at hc)
      · simp at h
    · split at h
      · rcases List.mem_singleton.mp h with rfl
        exact zc_textBadge (Or.inr rfl) (fun _ => by norm_num) (fun hc => by simp at hc)
      · simp at h

theorem zIndexContract_gridCells {gridSize : Nat} {csvData : Option (List CsvRow)} :
    ∀ {i : Nat} {products : List ProductImg} {e : LayoutElement},
      e ∈ gridCells gridSize csvData i products → zIndexContract e := by
  intro i products
  induction products generalizing i with
  | nil => intro e he; simp [gridCells] at he
  | cons p rest ih =>
    intro e he
    simp only [gridCells, List.mem_append, List.mem_cons] at he
    rcases he with (rfl | h) | h
    · exact zc_image rfl rfl
    · cases csvData with
      | some cd => exact zIndexContract_textCSV h
      | none => simp at h
    · exact ih h

theorem zIndexContract_grid {products : List ProductImg} {frameInfo : Option FrameInfo}
    {csvData : Option (List CsvRow)} {e : LayoutElement}
    (he : e ∈ createGridElements products frameInfo csvData) : zIndexContract e := by
  simp only [createGridElements, List.mem_append] at he
  rcases he with h | h
  · exact zIndexContract_gridCells h
  · cases frameInfo with
    | some frame =>
      rcases List.mem_singleton.mp h with rfl
      exact zc_frame rfl rfl
    | none => simp at h

theorem zIndexContract_banner {products : List ProductImg} {frameInfo : Option FrameInfo}
    {icons : List IconImg} {csvData : Option (List CsvRow)} {e : LayoutElement}
    (he : e ∈ createBannerElements products frameInfo icons csvData) :
    zIndexContract e := by
  simp only [createBannerElements, List.mem_append] at he
  rcases he with ((hfr | hhero) | hextra) | hicons
  · cases frameInfo with
    | some frame =>
      rcases List.mem_singleton.mp hfr with rfl
      exact zc_frame rfl rfl
    | none => simp at hfr
  · cases products with
    | nil => simp at hhero
    | cons hero rest =>
      rcases List.mem_cons.mp hhero with rfl | h
      · exact zc_image rfl rfl
      · cases csvData with
        | some cd => exact zIndexContract_textCSV h
        | none => simp at h
  · rcases List.mem_map.mp hextra with ⟨x, _, rfl⟩
    exact zc_image rfl rfl
  · split at hicons
    · rcases List.mem_map.mp hicons with ⟨x, _, rfl⟩
      exact zc_icon rfl rfl
    · simp at hicons

theorem zIndexContract_story {products : List ProductImg} {frameInfo : Option FrameInfo}
    {icons : List IconImg} {csvData : Option (List CsvRow)} {e : LayoutElement}
    (he : e ∈ createStoryElements products frameInfo icons csvData) :
    zIndexContract e := by
  simp only [createStoryElements, List.mem_append] at he
  rcases he with hfr | hhero
  · cases frameInfo with
    | some frame =>
      rcases List.mem_singleton.mp hfr with rfl
      exact zc_frame rfl rfl
    | none => simp at hfr
  · cases products with
    | nil => simp at hhero
    | cons hero rest =>
      rcases List.mem_cons.mp hhero with rfl | h
      · exact zc_image rfl rfl
      · cases csvData with
        | some cd =>
          have h2 : e ∈ (match matchProductToCSV hero cd with
              | some csvRow => createTextElementsFromCSV (some csvRow)
                  { x := 10, y := 68, width := 80, height := 20 }
              | none => [storyPlaceholder]) := h
          cases hmatch : matchProductToCSV hero cd with
          | some csvRow =>
            rw [hmatch] at h2
            exact zIndexContract_textCSV h2
          | none =>
            rw [hmatch] at h2
            rcases List.mem_singleton.mp h2 with rfl
            exact zc_textBadge (Or.inl rfl) (fun hc => by simp [storyPlaceholder] at hc)
              (fun _ => Or.inr rfl)
        | none =>
          have h2 : e ∈ [storyPlaceholder] := h
          rcases List.mem_singleton.mp h2 with rfl
          exact zc_textBadge (Or.inl rfl) (fun hc => by simp [storyPlaceholder] at hc)
            (fun _ => Or.inr rfl)

theorem zIndexContract_carouselProductSlides {csvData : Option (List CsvRow)} :
    ∀ {i : Nat} {products : List ProductImg} {s : Slide} {e : LayoutElement},
      s ∈ carouselProductSlides csvData i products → e ∈ s.elements → zIndexContract e := by
  intro i products
  induction products generalizing i with
  | nil => intro s e hs _; simp [carouselProductSlides] at hs
  | cons p rest ih =>
    intro s e hs he
    simp only [carouselProductSlides, List.mem_cons] at hs
    rcases hs with rfl | hs
    · simp only [List.mem_cons] at he
      rcases he with rfl | he
      · exact zc_image rfl rfl
      · cases csvData with
        | some cd =>
          have he2 : e ∈ (match matchProductToCSV p cd with
              | some csvRow => createTextElementsFromCSV (some csvRow)
                  { x := 10, y := 72, width := 80, height := 20 }
              | none => [carouselFallback i]) := he
          cases hmatch : matchProductToCSV p cd with
          | some csvRow =>
            rw [hmatch] at he2
            exact zIndexContract_textCSV he2
          | none =>
            rw [hmatch] at he2
            rcases List.mem_singleton.mp he2 with rfl
            exact zc_textBadge (Or.inl rfl) (fun hc => by simp [carouselFallback] at hc)
              (fun _ => Or.inr rfl)
        | none =>
          have he2 : e ∈ [carouselFallback i] := he
          rcases List.mem_singleton.mp he2 with rfl
          exact zc_textBadge (Or.inl rfl) (fun hc => by simp [carouselFallback] at hc)
            (fun _ => Or.inr rfl)
    · exact ih hs he

theorem zIndexContract_carousel {products : List ProductImg} {frameInfo : Option FrameInfo}
    {csvData : Option (List CsvRow)} {s : Slide} {e : LayoutElement}
    (hs : s ∈ createCarouselSlides products frameInfo csvData) (he : e ∈ s.elements) :
    zIndexContract e := by
  simp only [createCarouselSlides, List.mem_cons] at hs
  rcases hs with rfl | hs
  · simp only [List.mem_singleton] at he
    subst he
    exact zc_textBadge (Or.inl rfl) (fun hc => by simp at hc) (fun _ => Or.inl rfl)
  · exact zIndexContract_carouselProductSlides hs he

/-- **C3 counterexample.** With one product, no frame/icons and no CSV data,
the composer's story layout contains a text element (the hard-coded
placeholder) at `zIndex 2 < 10`, refuting the claim that every text element
paints at `zIndex ≥ 10` regardless of whether a CSV record was matched. -/
theorem zIndex_invariant_refuted :
    ("story", [("image", (1 : Nat)), ("text", 2)]) ∈
      ((generateLayoutRecommendations [⟨"u1", "p1.jpg", "p1"⟩] none [] none).map
        (fun l => (l.type, l.elements.map (fun e => (e.type, e.zIndex))))) ∧
    ¬ (10 ≤ (2 : Nat)) := by
  decide

/-- **C3 (amended).** In every layout produced by the composer, every frame
element has `zIndex 0`, every image `1`, every icon `2`, and every CSV-derived
text/badge element (those carrying a `dataField`) has `zIndex ≥ 10` — but the
hard-coded placeholder and title texts (no `dataField`) have `zIndex 1` or
`2`: the story/carousel fallback texts paint at `2` and the carousel title at
`1`. -/
theorem zIndex_contract_all (products : List ProductImg) (frameInfo : Option FrameInfo)
    (icons : List IconImg) (csvData : Option (List CsvRow)) :
    ∀ l ∈ generateLayoutRecommendations products frameInfo icons csvData,
      (∀ e ∈ l.elements, zIndexContract e) ∧
      (∀ s ∈ l.slides, ∀ e ∈ s.elements, zIndexContract e) := by
  intro l hl
  simp only [generateLayoutRecommendations, List.mem_insertionSort, List.mem_cons,
    List.mem_singleton] at hl
  rcases hl with rfl | rfl | rfl | rfl | hl
  · exact ⟨fun e he => @zIndexContract_grid products frameInfo csvData e he,
      fun s hs => by simp at hs⟩
  · exact ⟨fun e he => @zIndexContract_banner products frameInfo icons csvData e he,
      fun s hs => by simp at hs⟩
  · exact ⟨fun e he => @zIndexContract_story products frameInfo icons csvData e he,
      fun s hs => by simp at hs⟩
  · exact ⟨fun e he => by simp at he,
      fun s hs e he => @zIndexContract_carousel products frameInfo csvData s e hs he⟩
  · simp at hl

/-- Witness for the amended C3: the frame element of the grid layout for an
empty product list satisfies the contract. -/
theorem zIndex_contract_all_witness : zIndexContract (frameElement ⟨"f.png"⟩) := by
  have h := zIndex_contract_all [] (some ⟨"f.png"⟩) [] none
  have hmem : (generateLayoutRecommendations [] (some ⟨"f.png"⟩) [] none).getD 1 default ∈
      generateLayoutRecommendations [] (some ⟨"f.png"⟩) [] none := by decide
  have helem : frameElement ⟨"f.png"⟩ ∈
      ((generateLayoutRecommendations [] (some ⟨"f.png"⟩) [] none).getD 1 default).elements := by
    decide
  exact (h _ hmem).1 _ helem

end EcomLayout
